import Mathlib

/-!
Shallow embedding of the Estimation Scale & Rollup Engine of the
`estimator` repository (`src/lib/estimation-utils.ts`).

JavaScript numbers are modelled as rationals (`ℚ`); machine floats never
overflow in the tiny ranges involved here and every constant of the scale
tables is an integer, so rational arithmetic is the intended semantics.
A JavaScript runtime exception (reading `.hours` of `undefined`) is
modelled with `Option`: `none` is a thrown `TypeError`.

Display-only string fields of the data model (`name`, `description`,
`complexity`, `technical_notes`, `reasoning`, the per-label descriptions of
the scale table, and the stored `estimated_hours` of an estimation, which
the engine never reads) are omitted from the record types; the engine reads
none of them.
-/

set_option allowUnsafeReducibility true

attribute [local semireducible] Rat.add Rat.mul Rat.inv Rat.div Rat.sub Rat.neg

namespace Estimator

/-- The three scenario levels (`OptimisticLevel` in the source). -/
inductive OptimisticLevel where
  | optimistic
  | realistic
  | pessimistic
deriving DecidableEq

/-- `FIBONACCI_SCALE` from the source: the map from Fibonacci point labels to
hour values (per-label description strings omitted). -/
def FIBONACCI_SCALE : List (ℚ × ℚ) :=
  [(1, 2), (2, 4), (3, 6), (5, 14), (8, 20), (13, 34), (21, 54), (34, 88), (55, 144)]

/-- `FIBONACCI_SEQUENCE` from the source: the ordered label sequence. -/
def FIBONACCI_SEQUENCE : List ℚ := [1, 2, 3, 5, 8, 13, 21, 34, 55]

/-- One entry of `FIBONACCI_ADJUSTMENTS` from the source. -/
structure AdjustmentSpec where
  description : String
  pointsShift : Int
  maxShift : ℚ
deriving DecidableEq

/-- `FIBONACCI_ADJUSTMENTS` from the source. -/
def FIBONACCI_ADJUSTMENTS : OptimisticLevel → AdjustmentSpec
  | .optimistic =>
      { description := "Best case scenario - ideal conditions, no blockers",
        pointsShift := -1, maxShift := 1 }
  | .realistic =>
      { description := "Most likely scenario - normal development conditions",
        pointsShift := 0, maxShift := 0 }
  | .pessimistic =>
      { description := "Worst case scenario - accounting for unknowns and challenges",
        pointsShift := 1, maxShift := 55 }

/-- `fibonacciToHours` from the source: `FIBONACCI_SCALE[points].hours`.
Looking up a label that is not a key of `FIBONACCI_SCALE` yields `undefined`
and the subsequent `.hours` read throws, modelled by `none`. -/
def fibonacciToHours (points : ℚ) : Option ℚ :=
  (FIBONACCI_SCALE.find? (fun p => p.1 = points)).map (fun p => p.2)

/-- JavaScript `Array.prototype.indexOf`: index of the first occurrence of
`x`, or `-1` when `x` does not occur. -/
def arrayIndexOf (xs : List ℚ) (x : ℚ) : Int :=
  match xs with
  | [] => -1
  | y :: ys =>
      if y = x then 0
      else
        let r := arrayIndexOf ys x
        if r = -1 then -1 else r + 1

/-- `getNextFibonacci` from the source: one step up the sequence, returning
the argument unchanged when it is not found or already at the maximum. -/
def getNextFibonacci (current : ℚ) : ℚ :=
  let currentIndex := arrayIndexOf FIBONACCI_SEQUENCE current
  if currentIndex = -1 ∨ currentIndex = (FIBONACCI_SEQUENCE.length : Int) - 1 then
    current
  else
    FIBONACCI_SEQUENCE.getD (currentIndex + 1).toNat current

/-- `getPreviousFibonacci` from the source: one step down the sequence,
returning the argument unchanged when it is not found or already at the
minimum. -/
def getPreviousFibonacci (current : ℚ) : ℚ :=
  let currentIndex := arrayIndexOf FIBONACCI_SEQUENCE current
  if currentIndex = -1 ∨ currentIndex = 0 then
    current
  else
    FIBONACCI_SEQUENCE.getD (currentIndex - 1).toNat current

/-- `adjustFibonacciPoints` from the source. -/
def adjustFibonacciPoints (originalPoints : ℚ) (level : OptimisticLevel) : ℚ :=
  let adjustment := FIBONACCI_ADJUSTMENTS level
  if adjustment.pointsShift = 0 then
    originalPoints
  else if adjustment.pointsShift > 0 then
    getNextFibonacci originalPoints
  else
    getPreviousFibonacci originalPoints

/-- `isValidFibonacciPoint` from the source: `point in FIBONACCI_SCALE`,
i.e. key membership in the scale table. -/
def isValidFibonacciPoint (point : ℚ) : Bool :=
  FIBONACCI_SCALE.any (fun p => p.1 = point)

/-- `Math.ceil(x * 10) / 10` — round up to one decimal place.
`Rat.ceil` is the rational `Math.ceil`: the least integer not below the
argument. -/
def ceil10 (x : ℚ) : ℚ := (((x * 10).ceil : ℤ) : ℚ) / 10

/-- A `calculated_hours {original, adjusted}` annotation as declared on the
module/feature records of the repository's `ModuleData` interface. The
estimation engine never writes this field; it is present in the data model
so that the (absence of) mutation by the engine is observable. -/
structure CalculatedHours where
  original : ℚ
  adjusted : ℚ
deriving DecidableEq

/-- The estimation attached to a node. Only `fibonacci_points` is ever read
by the engine; the field may be absent (the record can instead carry the
T-shirt fields, which this engine ignores). -/
structure Estimation where
  fibonacci_points : Option ℚ
deriving DecidableEq

/-- A sub-feature: an id and an optional estimation. -/
structure SubFeature where
  id : String
  estimation : Option Estimation
deriving DecidableEq

/-- A feature: an id, an optional estimation of its own, optional
sub-features, and the optional `calculated_hours` annotation. -/
structure Feature where
  id : String
  estimation : Option Estimation
  sub_features : Option (List SubFeature)
  calculated_hours : Option CalculatedHours
deriving DecidableEq

/-- A module: optional features and the optional `calculated_hours`
annotation. -/
structure Module where
  features : Option (List Feature)
  calculated_hours : Option CalculatedHours
deriving DecidableEq

/-- The input tree (`modulesData`): an optional array of modules. -/
structure ModulesData where
  modules : Option (List Module)
deriving DecidableEq

/-- One value of the `adjustments` record built by
`calculateModuleEstimation`. -/
structure AdjustmentEntry where
  original_points : ℚ
  adjusted_points : ℚ
  original_hours : ℚ
  adjusted_hours : ℚ
  adjustment_reason : String
deriving DecidableEq

/-- The `totals` object of the result. -/
structure Totals where
  original_points : ℚ
  adjusted_points : ℚ
  original_hours : ℚ
  adjusted_hours : ℚ
  estimated_sprints : ℚ
  estimated_weeks : ℚ
deriving DecidableEq

/-- The full return value of `calculateModuleEstimation`. The JavaScript
`Record<string, any>` is modelled as an association list in insertion
order. -/
structure EstimationResult where
  scenario : OptimisticLevel
  team_velocity : ℚ
  adjustments : List (String × AdjustmentEntry)
  totals : Totals
deriving DecidableEq

/-- Assignment `m[k] = v` on a JavaScript object: an existing key keeps its
position and gets the new value, a new key is appended. -/
def recordSet (m : List (String × AdjustmentEntry)) (k : String)
    (v : AdjustmentEntry) : List (String × AdjustmentEntry) :=
  if m.any (fun p => p.1 = k) then
    m.map (fun p => if p.1 = k then (k, v) else p)
  else
    m ++ [(k, v)]

/-- The running totals and the adjustments record of the aggregation loop in
`calculateModuleEstimation`. -/
structure RollState where
  totalOriginalPoints : ℚ
  totalAdjustedPoints : ℚ
  totalOriginalHours : ℚ
  totalAdjustedHours : ℚ
  adjustments : List (String × AdjustmentEntry)
deriving DecidableEq

/-- The state at the top of the loop: all totals `0`, no adjustments. -/
def initialState : RollState :=
  { totalOriginalPoints := 0, totalAdjustedPoints := 0,
    totalOriginalHours := 0, totalAdjustedHours := 0, adjustments := [] }

/-- The JavaScript guard `node.estimation && node.estimation.fibonacci_points`:
`some points` when the estimation is present with truthy (present, nonzero)
points, `none` when the guard is falsy and the node is skipped. -/
def truthyPoints : Option Estimation → Option ℚ
  | none => none
  | some e =>
      match e.fibonacci_points with
      | none => none
      | some p => if p = 0 then none else some p

/-- The body shared by the feature branch and the sub-feature branch of the
loop in `calculateModuleEstimation`: skip the node when the guard is falsy,
otherwise adjust the points, look both labels up (a failed lookup throws,
modelled by `none`), add to the four running totals and record the
adjustment entry under the node's id. -/
def processNode (level : OptimisticLevel) (i : String) (est : Option Estimation)
    (st : RollState) : Option RollState :=
  match truthyPoints est with
  | none => some st
  | some originalPoints =>
      let adjustedPoints := adjustFibonacciPoints originalPoints level
      match fibonacciToHours originalPoints with
      | none => none
      | some originalHours =>
          match fibonacciToHours adjustedPoints with
          | none => none
          | some adjustedHours =>
              some { totalOriginalPoints := st.totalOriginalPoints + originalPoints,
                     totalAdjustedPoints := st.totalAdjustedPoints + adjustedPoints,
                     totalOriginalHours := st.totalOriginalHours + originalHours,
                     totalAdjustedHours := st.totalAdjustedHours + adjustedHours,
                     adjustments := recordSet st.adjustments i
                       { original_points := originalPoints,
                         adjusted_points := adjustedPoints,
                         original_hours := originalHours,
                         adjusted_hours := adjustedHours,
                         adjustment_reason := (FIBONACCI_ADJUSTMENTS level).description } }

/-- A `for (const x of xs)` loop whose body may throw: thread the state
through `step` over the list, propagating a thrown exception (`none`). All
three loops of `calculateModuleEstimation` are instances. -/
def runList {α : Type} (step : α → RollState → Option RollState) :
    List α → RollState → Option RollState
  | [], st => some st
  | x :: rest, st =>
      match step x st with
      | none => none
      | some st1 => runList step rest st1

/-- The inner `for (const subFeature of feature.sub_features)` loop. -/
def processSubFeatures (level : OptimisticLevel) (sfs : List SubFeature)
    (st : RollState) : Option RollState :=
  runList (fun sf => processNode level sf.id sf.estimation) sfs st

/-- One iteration of the `for (const feature of module.features)` loop: the
feature's own estimation first, then its sub-features when present. -/
def processFeature (level : OptimisticLevel) (f : Feature) (st : RollState) :
    Option RollState :=
  match processNode level f.id f.estimation st with
  | none => none
  | some st1 =>
      match f.sub_features with
      | none => some st1
      | some sfs => processSubFeatures level sfs st1

/-- One iteration of the `for (const module of modulesData.modules)` loop:
nothing when the module has no `features` array. -/
def processModule (level : OptimisticLevel) (m : Module) (st : RollState) :
    Option RollState :=
  match m.features with
  | none => some st
  | some fs => runList (processFeature level) fs st

/-- The `for (const module of modulesData.modules)` loop. -/
def processModules (level : OptimisticLevel) (ms : List Module)
    (st : RollState) : Option RollState :=
  runList (processModule level) ms st

/-- `calculateModuleEstimation` from the source. The source defaults
`level` to `realistic` and `teamVelocity` to `20`; both are passed
explicitly here. A `none` result is a thrown `TypeError` (an unknown label
reached `fibonacciToHours`). -/
def calculateModuleEstimation (modulesData : ModulesData)
    (level : OptimisticLevel) (teamVelocity : ℚ) : Option EstimationResult :=
  match (match modulesData.modules with
         | none => some initialState
         | some ms => processModules level ms initialState) with
  | none => none
  | some st =>
      let estimatedSprints := st.totalAdjustedPoints / teamVelocity
      let estimatedWeeks := estimatedSprints * 2
      some { scenario := level,
             team_velocity := teamVelocity,
             adjustments := st.adjustments,
             totals := { original_points := st.totalOriginalPoints,
                         adjusted_points := st.totalAdjustedPoints,
                         original_hours := st.totalOriginalHours,
                         adjusted_hours := st.totalAdjustedHours,
                         estimated_sprints := ceil10 estimatedSprints,
                         estimated_weeks := ceil10 estimatedWeeks } }

/-- `calculateModuleEstimation` together with the caller's tree as it stands
after the call. The source function reads `modules`, `features`,
`sub_features`, `estimation`, `fibonacci_points` and `id` and assigns to
none of them, so the tree component of the state-passing embedding is the
input tree itself. -/
def calculateModuleEstimationTree (modulesData : ModulesData)
    (level : OptimisticLevel) (teamVelocity : ℚ) :
    Option (EstimationResult × ModulesData) :=
  (calculateModuleEstimation modulesData level teamVelocity).map
    (fun r => (r, modulesData))

/-- The return value of `getEstimationSummary`. -/
structure Summary where
  points : ℚ
  hours : ℚ
  sprints : ℚ
  weeks : ℚ
  team_velocity : ℚ
deriving DecidableEq

/-- `getEstimationSummary` from the source (the `teamVelocity = 20` default
is passed explicitly). -/
def getEstimationSummary (totalPoints : ℚ) (totalHours : ℚ)
    (teamVelocity : ℚ) : Summary :=
  let sprints := totalPoints / teamVelocity
  let weeks := sprints * 2
  { points := totalPoints,
    hours := totalHours,
    sprints := ceil10 sprints,
    weeks := ceil10 weeks,
    team_velocity := teamVelocity }

/-! ### Specification layer

The loop is re-expressed as: collect, in traversal order, the keyed
adjustment entry of every estimation-bearing node, then fold the entries
into the running state. The bridge lemmas below prove this equal to the
loop, and the per-claim theorems are read off the collected list. -/

/-- The adjustment entry the engine computes for a truthy label `p`:
`none` when a lookup of the original or the adjusted label throws. -/
def entryFor (level : OptimisticLevel) (p : ℚ) : Option AdjustmentEntry :=
  match fibonacciToHours p with
  | none => none
  | some originalHours =>
      match fibonacciToHours (adjustFibonacciPoints p level) with
      | none => none
      | some adjustedHours =>
          some { original_points := p,
                 adjusted_points := adjustFibonacciPoints p level,
                 original_hours := originalHours,
                 adjusted_hours := adjustedHours,
                 adjustment_reason := (FIBONACCI_ADJUSTMENTS level).description }

/-- The keyed contribution of one estimation-bearing node: nothing when the
guard is falsy, one entry under the node's id otherwise. -/
def nodeContrib (level : OptimisticLevel) (i : String) (est : Option Estimation) :
    Option (List (String × AdjustmentEntry)) :=
  match truthyPoints est with
  | none => some []
  | some p => (entryFor level p).map (fun en => [(i, en)])

/-- Concatenated contributions of the elements of a list, propagating a
thrown lookup. -/
def contribList {α : Type} (c : α → Option (List (String × AdjustmentEntry))) :
    List α → Option (List (String × AdjustmentEntry))
  | [] => some []
  | x :: rest =>
      match c x with
      | none => none
      | some ps =>
          match contribList c rest with
          | none => none
          | some qs => some (ps ++ qs)

/-- Contributions of one feature: its own estimation, then its
sub-features. -/
def featureContrib (level : OptimisticLevel) (f : Feature) :
    Option (List (String × AdjustmentEntry)) :=
  match nodeContrib level f.id f.estimation with
  | none => none
  | some ps =>
      match f.sub_features with
      | none => some ps
      | some sfs =>
          match contribList (fun sf => nodeContrib level sf.id sf.estimation) sfs with
          | none => none
          | some qs => some (ps ++ qs)

/-- Contributions of one module. -/
def moduleContrib (level : OptimisticLevel) (m : Module) :
    Option (List (String × AdjustmentEntry)) :=
  match m.features with
  | none => some []
  | some fs => contribList (featureContrib level) fs

/-- Contributions of the whole tree. -/
def treeContrib (level : OptimisticLevel) (t : ModulesData) :
    Option (List (String × AdjustmentEntry)) :=
  match t.modules with
  | none => some []
  | some ms => contribList (moduleContrib level) ms

/-- Fold one keyed entry into the running state, exactly as the loop body
does. -/
def applyEntry (st : RollState) (kv : String × AdjustmentEntry) : RollState :=
  { totalOriginalPoints := st.totalOriginalPoints + kv.2.original_points,
    totalAdjustedPoints := st.totalAdjustedPoints + kv.2.adjusted_points,
    totalOriginalHours := st.totalOriginalHours + kv.2.original_hours,
    totalAdjustedHours := st.totalAdjustedHours + kv.2.adjusted_hours,
    adjustments := recordSet st.adjustments kv.1 kv.2 }

/-- Fold a list of keyed entries into the running state. -/
def applyAll (st : RollState) (ps : List (String × AdjustmentEntry)) : RollState :=
  ps.foldl applyEntry st

/-- `recordSet` uncurried over a keyed entry. -/
def keyInsert (m : List (String × AdjustmentEntry))
    (kv : String × AdjustmentEntry) : List (String × AdjustmentEntry) :=
  recordSet m kv.1 kv.2

theorem applyAll_append (st : RollState) (ps qs : List (String × AdjustmentEntry)) :
    applyAll st (ps ++ qs) = applyAll (applyAll st ps) qs :=
  List.foldl_append applyEntry st ps qs

theorem processNode_eq (level : OptimisticLevel) (i : String)
    (est : Option Estimation) (st : RollState) :
    processNode level i est st = (nodeContrib level i est).map (applyAll st) := by
  unfold processNode nodeContrib entryFor
  cases htp : truthyPoints est with
  | none => rfl
  | some p =>
      cases hoh : fibonacciToHours p with
      | none => simp [hoh]
      | some oh =>
          cases hah : fibonacciToHours (adjustFibonacciPoints p level) with
          | none => simp [hoh, hah]
          | some ah => simp [hoh, hah, applyAll, applyEntry]

theorem runList_eq {α : Type} (step : α → RollState → Option RollState)
    (c : α → Option (List (String × AdjustmentEntry)))
    (hc : ∀ x st, step x st = (c x).map (applyAll st)) :
    ∀ (xs : List α) (st : RollState),
      runList step xs st = (contribList c xs).map (applyAll st) := by
  intro xs
  induction xs with
  | nil => intro st; rfl
  | cons x rest ih =>
      intro st
      simp only [runList, contribList, hc x st]
      cases hx : c x with
      | none => rfl
      | some ps =>
          simp only [Option.map_some']
          rw [ih (applyAll st ps)]
          cases hrest : contribList c rest with
          | none => rfl
          | some qs => simp [applyAll_append]

theorem processFeature_eq (level : OptimisticLevel) (f : Feature) (st : RollState) :
    processFeature level f st = (featureContrib level f).map (applyAll st) := by
  unfold processFeature featureContrib
  rw [processNode_eq]
  cases hn : nodeContrib level f.id f.estimation with
  | none => rfl
  | some ps =>
      simp only [Option.map_some']
      cases f.sub_features with
      | none => rfl
      | some sfs =>
          show runList (fun sf => processNode level sf.id sf.estimation) sfs (applyAll st ps)
              = Option.map (applyAll st)
                  (match contribList (fun sf => nodeContrib level sf.id sf.estimation) sfs with
                   | none => none
                   | some qs => some (ps ++ qs))
          rw [runList_eq (fun (sf : SubFeature) => processNode level sf.id sf.estimation)
                (fun sf => nodeContrib level sf.id sf.estimation)
                (fun sf st2 => processNode_eq level sf.id sf.estimation st2)
                sfs (applyAll st ps)]
          cases hrest : contribList (fun sf => nodeContrib level sf.id sf.estimation) sfs with
          | none => rfl
          | some qs => simp [applyAll_append]

theorem processModule_eq (level : OptimisticLevel) (m : Module) (st : RollState) :
    processModule level m st = (moduleContrib level m).map (applyAll st) := by
  unfold processModule moduleContrib
  cases m.features with
  | none => rfl
  | some fs =>
      show runList (processFeature level) fs st
          = (contribList (featureContrib level) fs).map (applyAll st)
      exact runList_eq (processFeature level) (featureContrib level)
        (processFeature_eq level) fs st

theorem processModules_eq (level : OptimisticLevel) (ms : List Module) (st : RollState) :
    processModules level ms st
      = (contribList (moduleContrib level) ms).map (applyAll st) :=
  runList_eq (processModule level) (moduleContrib level) (processModule_eq level) ms st

/-- The result assembled from a final state (the tail of
`calculateModuleEstimation` after the loop). -/
def assembleResult (level : OptimisticLevel) (teamVelocity : ℚ) (st : RollState) :
    EstimationResult :=
  { scenario := level,
    team_velocity := teamVelocity,
    adjustments := st.adjustments,
    totals := { original_points := st.totalOriginalPoints,
                adjusted_points := st.totalAdjustedPoints,
                original_hours := st.totalOriginalHours,
                adjusted_hours := st.totalAdjustedHours,
                estimated_sprints := ceil10 (st.totalAdjustedPoints / teamVelocity),
                estimated_weeks := ceil10 (st.totalAdjustedPoints / teamVelocity * 2) } }

theorem calculateModuleEstimation_eq (t : ModulesData) (level : OptimisticLevel)
    (v : ℚ) :
    calculateModuleEstimation t level v
      = (treeContrib level t).map
          (fun ps => assembleResult level v (applyAll initialState ps)) := by
  unfold calculateModuleEstimation treeContrib
  cases t.modules with
  | none => rfl
  | some ms =>
      simp only [processModules_eq]
      cases contribList (moduleContrib level) ms with
      | none => rfl
      | some ps => rfl

theorem applyAll_spec (ps : List (String × AdjustmentEntry)) :
    ∀ st : RollState,
      applyAll st ps =
        { totalOriginalPoints :=
            st.totalOriginalPoints + (ps.map (fun kv => kv.2.original_points)).sum,
          totalAdjustedPoints :=
            st.totalAdjustedPoints + (ps.map (fun kv => kv.2.adjusted_points)).sum,
          totalOriginalHours :=
            st.totalOriginalHours + (ps.map (fun kv => kv.2.original_hours)).sum,
          totalAdjustedHours :=
            st.totalAdjustedHours + (ps.map (fun kv => kv.2.adjusted_hours)).sum,
          adjustments := ps.foldl keyInsert st.adjustments } := by
  induction ps with
  | nil => intro st; simp [applyAll]
  | cons kv rest ih =>
      intro st
      show applyAll (applyEntry st kv) rest = _
      rw [ih (applyEntry st kv)]
      simp [applyEntry, keyInsert, add_assoc]

theorem recordSet_fresh (m : List (String × AdjustmentEntry)) (k : String)
    (v : AdjustmentEntry) (h : ∀ q ∈ m, q.1 ≠ k) :
    recordSet m k v = m ++ [(k, v)] := by
  have hany : m.any (fun p => p.1 = k) = false := by
    rw [List.any_eq_false]
    intro q hq
    simpa using h q hq
  simp [recordSet, hany]

theorem foldl_keyInsert_fresh (ps : List (String × AdjustmentEntry)) :
    ∀ m, (ps.map Prod.fst).Nodup → (∀ kv ∈ ps, ∀ q ∈ m, q.1 ≠ kv.1) →
      ps.foldl keyInsert m = m ++ ps := by
  induction ps with
  | nil => intro m _ _; simp
  | cons kv rest ih =>
      intro m hnd hfresh
      simp only [List.map_cons, List.nodup_cons] at hnd
      obtain ⟨hni, hnd'⟩ := hnd
      have h1 : keyInsert m kv = m ++ [kv] :=
        recordSet_fresh m kv.1 kv.2 (hfresh kv (by simp))
      show rest.foldl keyInsert (keyInsert m kv) = m ++ kv :: rest
      rw [h1, ih (m ++ [kv]) hnd']
      · simp
      · intro kv2 h2 q hq
        rcases List.mem_append.mp hq with hq | hq
        · exact hfresh kv2 (List.mem_cons_of_mem _ h2) q hq
        · have hq' : q = kv := by simpa using hq
          subst hq'
          intro heq
          exact hni (heq ▸ List.mem_map_of_mem Prod.fst h2)

theorem foldl_keyInsert_nil (ps : List (String × AdjustmentEntry))
    (h : (ps.map Prod.fst).Nodup) : ps.foldl keyInsert [] = ps := by
  have := foldl_keyInsert_fresh ps [] h (by intro kv _ q hq; cases hq)
  simpa using this

/-! ### Validity: a tree whose present labels are all in the scale -/

/-- A node's estimation is harmless to the loop: either its guard is falsy,
or its (truthy) label is a key of the scale table. -/
def estimationValid (est : Option Estimation) : Bool :=
  match truthyPoints est with
  | none => true
  | some p => isValidFibonacciPoint p

/-- Every estimation of the feature and of its sub-features is harmless. -/
def featureValid (f : Feature) : Bool :=
  estimationValid f.estimation &&
    (match f.sub_features with
     | none => true
     | some sfs => sfs.all (fun sf => estimationValid sf.estimation))

/-- Every estimation below the module is harmless. -/
def moduleValid (m : Module) : Bool :=
  match m.features with
  | none => true
  | some fs => fs.all featureValid

/-- Every estimation in the tree is harmless: the loop cannot throw. -/
def treeValid (t : ModulesData) : Bool :=
  match t.modules with
  | none => true
  | some ms => ms.all moduleValid

theorem valid_label_cases (p : ℚ) (h : isValidFibonacciPoint p = true) :
    p = 1 ∨ p = 2 ∨ p = 3 ∨ p = 5 ∨ p = 8 ∨ p = 13 ∨ p = 21 ∨ p = 34 ∨ p = 55 := by
  simp [isValidFibonacciPoint, FIBONACCI_SCALE] at h
  tauto

theorem entryFor_isSome (level : OptimisticLevel) (p : ℚ)
    (h : isValidFibonacciPoint p = true) : (entryFor level p).isSome = true := by
  rcases valid_label_cases p h with rfl | rfl | rfl | rfl | rfl | rfl | rfl | rfl | rfl <;>
    cases level <;> decide

theorem nodeContrib_isSome (level : OptimisticLevel) (i : String)
    (est : Option Estimation) (h : estimationValid est = true) :
    (nodeContrib level i est).isSome = true := by
  unfold estimationValid at h
  unfold nodeContrib
  cases htp : truthyPoints est with
  | none => rfl
  | some p =>
      simp only [htp] at h
      have hsome := entryFor_isSome level p h
      cases he : entryFor level p with
      | none => rw [he] at hsome; cases hsome
      | some en => simp [he]

theorem contribList_isSome {α : Type}
    (c : α → Option (List (String × AdjustmentEntry))) (xs : List α)
    (h : ∀ x ∈ xs, (c x).isSome = true) :
    (contribList c xs).isSome = true := by
  induction xs with
  | nil => rfl
  | cons x rest ih =>
      have hx := h x (by simp)
      cases hcx : c x with
      | none => rw [hcx] at hx; cases hx
      | some ps =>
          have hrest := ih (fun y hy => h y (by simp [hy]))
          cases hcr : contribList c rest with
          | none => rw [hcr] at hrest; cases hrest
          | some qs => simp [contribList, hcx, hcr]

theorem featureContrib_isSome (level : OptimisticLevel) (f : Feature)
    (h : featureValid f = true) : (featureContrib level f).isSome = true := by
  unfold featureValid at h
  rw [Bool.and_eq_true] at h
  obtain ⟨h1, h2⟩ := h
  unfold featureContrib
  have hn := nodeContrib_isSome level f.id f.estimation h1
  cases hcn : nodeContrib level f.id f.estimation with
  | none => rw [hcn] at hn; cases hn
  | some ps =>
      cases hsf : f.sub_features with
      | none => rfl
      | some sfs =>
          simp only [hsf] at h2
          have hall : ∀ sf ∈ sfs, (nodeContrib level sf.id sf.estimation).isSome = true := by
            intro sf hmem
            exact nodeContrib_isSome level sf.id sf.estimation
              ((List.all_eq_true.mp h2) sf hmem)
          have hcl := contribList_isSome (fun sf => nodeContrib level sf.id sf.estimation) sfs hall
          cases hcr : contribList (fun sf => nodeContrib level sf.id sf.estimation) sfs with
          | none => rw [hcr] at hcl; cases hcl
          | some qs => simp [hcr]

theorem moduleContrib_isSome (level : OptimisticLevel) (m : Module)
    (h : moduleValid m = true) : (moduleContrib level m).isSome = true := by
  unfold moduleValid at h
  unfold moduleContrib
  cases hf : m.features with
  | none => rfl
  | some fs =>
      simp only [hf] at h
      exact contribList_isSome (featureContrib level) fs
        (fun f hmem => featureContrib_isSome level f ((List.all_eq_true.mp h) f hmem))

theorem treeContrib_isSome (level : OptimisticLevel) (t : ModulesData)
    (h : treeValid t = true) : (treeContrib level t).isSome = true := by
  unfold treeValid at h
  unfold treeContrib
  cases hm : t.modules with
  | none => rfl
  | some ms =>
      simp only [hm] at h
      exact contribList_isSome (moduleContrib level) ms
        (fun m hmem => moduleContrib_isSome level m ((List.all_eq_true.mp h) m hmem))

/-! ### Ids of the tree and keys of the contributions -/

/-- The ids of a sub-feature list. -/
def subFeatureIds (sfs : List SubFeature) : List String := sfs.map SubFeature.id

/-- The id of a feature followed by the ids of its sub-features. -/
def featureIds (f : Feature) : List String :=
  f.id :: (match f.sub_features with
           | none => []
           | some sfs => subFeatureIds sfs)

/-- All feature and sub-feature ids below a module, in traversal order. -/
def moduleIds (m : Module) : List String :=
  match m.features with
  | none => []
  | some fs => (fs.map featureIds).flatten

/-- All feature and sub-feature ids of the tree, in traversal order. -/
def treeIds (t : ModulesData) : List String :=
  match t.modules with
  | none => []
  | some ms => (ms.map moduleIds).flatten

theorem nodeContrib_keys (level : OptimisticLevel) (i : String)
    (est : Option Estimation) (ps : List (String × AdjustmentEntry))
    (h : nodeContrib level i est = some ps) : (ps.map Prod.fst).Sublist [i] := by
  unfold nodeContrib at h
  cases htp : truthyPoints est with
  | none =>
      simp only [htp] at h
      obtain rfl : ([] : List (String × AdjustmentEntry)) = ps := by simpa using h
      simp
  | some p =>
      simp only [htp] at h
      cases he : entryFor level p with
      | none => simp [he] at h
      | some en =>
          simp only [he, Option.map_some'] at h
          obtain rfl : [(i, en)] = ps := by simpa using h
          simp

theorem contribList_keys {α : Type}
    (c : α → Option (List (String × AdjustmentEntry))) (ids : α → List String)
    (hx : ∀ x ps, c x = some ps → (ps.map Prod.fst).Sublist (ids x)) :
    ∀ (xs : List α) (qs : List (String × AdjustmentEntry)),
      contribList c xs = some qs →
      (qs.map Prod.fst).Sublist ((xs.map ids).flatten) := by
  intro xs
  induction xs with
  | nil =>
      intro qs h
      obtain rfl : ([] : List (String × AdjustmentEntry)) = qs := by
        simpa [contribList] using h
      simp
  | cons x rest ih =>
      intro qs h
      unfold contribList at h
      cases hcx : c x with
      | none => rw [hcx] at h; cases h
      | some ps =>
          rw [hcx] at h
          cases hcr : contribList c rest with
          | none => rw [hcr] at h; cases h
          | some qs2 =>
              rw [hcr] at h
              obtain rfl : ps ++ qs2 = qs := by simpa using h
              simp only [List.map_cons, List.flatten_cons, List.map_append]
              exact (hx x ps hcx).append (ih qs2 hcr)

theorem flatten_map_singleton {α β : Type} (g : α → β) (xs : List α) :
    (xs.map (fun x => [g x])).flatten = xs.map g := by
  induction xs with
  | nil => rfl
  | cons x rest ih => simp [ih]

theorem featureContrib_keys (level : OptimisticLevel) (f : Feature)
    (ps : List (String × AdjustmentEntry)) (h : featureContrib level f = some ps) :
    (ps.map Prod.fst).Sublist (featureIds f) := by
  unfold featureContrib at h
  cases hcn : nodeContrib level f.id f.estimation with
  | none => simp [hcn] at h
  | some ps0 =>
      simp only [hcn] at h
      have hps0 := nodeContrib_keys level f.id f.estimation ps0 hcn
      cases hsf : f.sub_features with
      | none =>
          simp only [hsf] at h
          obtain rfl : ps0 = ps := by simpa using h
          have hids : featureIds f = [f.id] := by simp [featureIds, hsf]
          rw [hids]
          exact hps0
      | some sfs =>
          simp only [hsf] at h
          cases hcr : contribList (fun sf => nodeContrib level sf.id sf.estimation) sfs with
          | none => simp [hcr] at h
          | some qs =>
              simp only [hcr] at h
              obtain rfl : ps0 ++ qs = ps := by simpa using h
              have hqs : (qs.map Prod.fst).Sublist (subFeatureIds sfs) := by
                have hgen := contribList_keys
                  (fun sf => nodeContrib level sf.id sf.estimation)
                  (fun sf => [sf.id])
                  (fun sf ps1 h1 => nodeContrib_keys level sf.id sf.estimation ps1 h1)
                  sfs qs hcr
                rw [flatten_map_singleton SubFeature.id sfs] at hgen
                exact hgen
              have hids : featureIds f = [f.id] ++ subFeatureIds sfs := by
                simp [featureIds, hsf]
              rw [hids, List.map_append]
              exact hps0.append hqs

theorem moduleContrib_keys (level : OptimisticLevel) (m : Module)
    (ps : List (String × AdjustmentEntry)) (h : moduleContrib level m = some ps) :
    (ps.map Prod.fst).Sublist (moduleIds m) := by
  unfold moduleContrib at h
  unfold moduleIds
  cases hf : m.features with
  | none =>
      rw [hf] at h
      obtain rfl : ([] : List (String × AdjustmentEntry)) = ps := by simpa using h
      simp
  | some fs =>
      rw [hf] at h
      exact contribList_keys (featureContrib level) featureIds
        (featureContrib_keys level) fs ps h

theorem treeContrib_keys (level : OptimisticLevel) (t : ModulesData)
    (ps : List (String × AdjustmentEntry)) (h : treeContrib level t = some ps) :
    (ps.map Prod.fst).Sublist (treeIds t) := by
  unfold treeContrib at h
  unfold treeIds
  cases hm : t.modules with
  | none =>
      rw [hm] at h
      obtain rfl : ([] : List (String × AdjustmentEntry)) = ps := by simpa using h
      simp
  | some ms =>
      rw [hm] at h
      exact contribList_keys (moduleContrib level) moduleIds
        (moduleContrib_keys level) ms ps h

/-! ### Further helper lemmas -/

theorem runList_skip {α : Type} (step : α → RollState → Option RollState) (x0 : α)
    (hx0 : ∀ st, step x0 st = some st) (xs1 xs2 : List α) :
    ∀ st, runList step (xs1 ++ x0 :: xs2) st = runList step (xs1 ++ xs2) st := by
  induction xs1 with
  | nil =>
      intro st
      show runList step (x0 :: xs2) st = runList step xs2 st
      simp [runList, hx0 st]
  | cons x rest ih =>
      intro st
      show runList step (x :: (rest ++ x0 :: xs2)) st
          = runList step (x :: (rest ++ xs2)) st
      simp only [runList]
      cases step x st with
      | none => rfl
      | some st1 => exact ih st1

theorem arrayIndexOf_not_mem (xs : List ℚ) (x : ℚ) (h : x ∉ xs) :
    arrayIndexOf xs x = -1 := by
  induction xs with
  | nil => rfl
  | cons y ys ih =>
      simp only [List.mem_cons, not_or] at h
      obtain ⟨h1, h2⟩ := h
      have hy : ¬ (y = x) := fun hyx => h1 hyx.symm
      simp [arrayIndexOf, hy, ih h2]

theorem getNextFibonacci_not_mem (q : ℚ) (hq : q ∉ FIBONACCI_SEQUENCE) :
    getNextFibonacci q = q := by
  unfold getNextFibonacci
  rw [arrayIndexOf_not_mem _ _ hq]
  simp

theorem getPreviousFibonacci_not_mem (q : ℚ) (hq : q ∉ FIBONACCI_SEQUENCE) :
    getPreviousFibonacci q = q := by
  unfold getPreviousFibonacci
  rw [arrayIndexOf_not_mem _ _ hq]
  simp

/-! ### Concrete inputs used by counterexamples and witnesses -/

/-- The realistic adjustment reason string from `FIBONACCI_ADJUSTMENTS`. -/
def realisticReason : String := "Most likely scenario - normal development conditions"

/-- One module, one feature `F1` carrying an 8-point estimation, no
sub-features, and no `calculated_hours` annotation anywhere. -/
def annotTree : ModulesData :=
  { modules := some [
      { features := some [
          { id := "F1", estimation := some { fibonacci_points := some 8 },
            sub_features := none, calculated_hours := none } ],
        calculated_hours := none } ] }

/-- The result of the realistic rollup of `annotTree` at velocity 20. -/
def annotResult : EstimationResult :=
  { scenario := OptimisticLevel.realistic, team_velocity := 20,
    adjustments := [("F1",
      { original_points := 8, adjusted_points := 8, original_hours := 20,
        adjusted_hours := 20, adjustment_reason := realisticReason })],
    totals := { original_points := 8, adjusted_points := 8, original_hours := 20,
                adjusted_hours := 20, estimated_sprints := 2/5,
                estimated_weeks := 4/5 } }

/-- Two 8-point sub-features: 40 adjusted hours but only 16 adjusted points. -/
def twoEightsTree : ModulesData :=
  { modules := some [
      { features := some [
          { id := "F1", estimation := none,
            sub_features := some [
              { id := "S1", estimation := some { fibonacci_points := some 8 } },
              { id := "S2", estimation := some { fibonacci_points := some 8 } } ],
            calculated_hours := none } ],
        calculated_hours := none } ] }

/-- Five 8-point sub-features: 40 adjusted points (100 adjusted hours). -/
def fortyPointsTree : ModulesData :=
  { modules := some [
      { features := some [
          { id := "F1", estimation := none,
            sub_features := some [
              { id := "S1", estimation := some { fibonacci_points := some 8 } },
              { id := "S2", estimation := some { fibonacci_points := some 8 } },
              { id := "S3", estimation := some { fibonacci_points := some 8 } },
              { id := "S4", estimation := some { fibonacci_points := some 8 } },
              { id := "S5", estimation := some { fibonacci_points := some 8 } } ],
            calculated_hours := none } ],
        calculated_hours := none } ] }

/-- The result of the realistic rollup of `fortyPointsTree` at velocity 20. -/
def fortyResult : EstimationResult :=
  { scenario := OptimisticLevel.realistic, team_velocity := 20,
    adjustments := [
      ("S1", { original_points := 8, adjusted_points := 8, original_hours := 20,
               adjusted_hours := 20, adjustment_reason := realisticReason }),
      ("S2", { original_points := 8, adjusted_points := 8, original_hours := 20,
               adjusted_hours := 20, adjustment_reason := realisticReason }),
      ("S3", { original_points := 8, adjusted_points := 8, original_hours := 20,
               adjusted_hours := 20, adjustment_reason := realisticReason }),
      ("S4", { original_points := 8, adjusted_points := 8, original_hours := 20,
               adjusted_hours := 20, adjustment_reason := realisticReason }),
      ("S5", { original_points := 8, adjusted_points := 8, original_hours := 20,
               adjusted_hours := 20, adjustment_reason := realisticReason }) ],
    totals := { original_points := 40, adjusted_points := 40, original_hours := 100,
                adjusted_hours := 100, estimated_sprints := 2,
                estimated_weeks := 4 } }

/-- A representative tree: an estimated feature with one estimated and one
estimation-less sub-feature, an estimation-less feature, and a module with
no `features` array. -/
def mixedTree : ModulesData :=
  { modules := some [
      { features := some [
          { id := "F1", estimation := some { fibonacci_points := some 8 },
            sub_features := some [
              { id := "S1", estimation := some { fibonacci_points := some 5 } },
              { id := "S2", estimation := none } ],
            calculated_hours := none },
          { id := "F2", estimation := none, sub_features := none,
            calculated_hours := none } ],
        calculated_hours := none },
      { features := none, calculated_hours := none } ] }

/-- The result of the realistic rollup of `mixedTree` at velocity 20. -/
def mixedResult : EstimationResult :=
  { scenario := OptimisticLevel.realistic, team_velocity := 20,
    adjustments := [
      ("F1", { original_points := 8, adjusted_points := 8, original_hours := 20,
               adjusted_hours := 20, adjustment_reason := realisticReason }),
      ("S1", { original_points := 5, adjusted_points := 5, original_hours := 14,
               adjusted_hours := 14, adjustment_reason := realisticReason }) ],
    totals := { original_points := 13, adjusted_points := 13, original_hours := 34,
                adjusted_hours := 34, estimated_sprints := 7/10,
                estimated_weeks := 13/10 } }

/-- A first module with no `features` array next to a second module whose
sub-feature carries the unknown label 4. -/
def missingAndUnknownTree : ModulesData :=
  { modules := some [
      { features := none, calculated_hours := none },
      { features := some [
          { id := "F1", estimation := none,
            sub_features := some [
              { id := "S1", estimation := some { fibonacci_points := some 4 } } ],
            calculated_hours := none } ],
        calculated_hours := none } ] }

/-- A module whose `features` array is absent: contributes nothing. -/
def emptyModule : Module := { features := none, calculated_hours := none }

/-- A feature with neither an estimation nor a `sub_features` array. -/
def bareFeature : Feature :=
  { id := "F0", estimation := none, sub_features := none, calculated_hours := none }

/-- A sub-feature without an estimation. -/
def bareSubFeature : SubFeature := { id := "Z0", estimation := none }

/-! ### The claims -/

/-- C1, counterexample to the claim as stated: on `twoEightsTree` with the
realistic scenario and teamVelocity 20 the totals carry
`adjusted_hours = 40`, yet `estimated_sprints` is `0.8` and
`estimated_weeks` is `1.6`, not the `2.0` and `4.0` that
`adjusted_hours / teamVelocity` rounded up to one decimal place (and its
double) would give: the code divides `adjusted_points`, not
`adjusted_hours`, by the velocity. -/
theorem C1_hours_based_derivation_cex :
    (calculateModuleEstimation twoEightsTree OptimisticLevel.realistic 20).map
        (fun r => (r.totals.adjusted_hours, r.totals.estimated_sprints,
                   r.totals.estimated_weeks))
      = some (40, 4/5, 8/5)
    ∧ ceil10 ((40 : ℚ) / 20) = 2 ∧ ceil10 ((40 : ℚ) / 20 * 2) = 4
    ∧ ¬ ((4 : ℚ) / 5 = 2) ∧ ¬ ((8 : ℚ) / 5 = 4) := by
  decide

/-- C1 (amended): for every tree, scenario and positive teamVelocity, a
returned result satisfies `estimated_sprints = adjusted_points / teamVelocity`
rounded up to one decimal place and
`estimated_weeks = (adjusted_points / teamVelocity) * 2` rounded up to one
decimal place; in particular `adjusted_points = 40` with `teamVelocity = 20`
yields sprints `2.0` and weeks `4.0` (witness). -/
theorem C1_sprint_week_from_points (t : ModulesData) (level : OptimisticLevel)
    (v : ℚ) (hv : 0 < v) (r : EstimationResult)
    (h : calculateModuleEstimation t level v = some r) :
    r.totals.estimated_sprints = ceil10 (r.totals.adjusted_points / v) ∧
    r.totals.estimated_weeks = ceil10 (r.totals.adjusted_points / v * 2) := by
  rw [calculateModuleEstimation_eq] at h
  cases hc : treeContrib level t with
  | none => rw [hc] at h; cases h
  | some ps =>
      rw [hc] at h
      obtain rfl : assembleResult level v (applyAll initialState ps) = r := by
        simpa using h
      exact ⟨rfl, rfl⟩

/-- C1 witness: the derivation theorem applied to `fortyPointsTree`, whose
40 adjusted points at velocity 20 give sprints `2.0` and weeks `4.0`. -/
theorem C1_sprint_week_from_points_witness :
    (fortyResult.totals.adjusted_points = 40 ∧
     fortyResult.totals.estimated_sprints = 2 ∧
     fortyResult.totals.estimated_weeks = 4) ∧
    (fortyResult.totals.estimated_sprints
        = ceil10 (fortyResult.totals.adjusted_points / 20) ∧
     fortyResult.totals.estimated_weeks
        = ceil10 (fortyResult.totals.adjusted_points / 20 * 2)) :=
  ⟨by decide,
   C1_sprint_week_from_points fortyPointsTree OptimisticLevel.realistic 20
     (by decide) fortyResult (by decide)⟩

/-- C2, counterexample to the claim as stated: running the engine on
`annotTree` leaves the caller's tree exactly as it was — in particular its
only module still has `calculated_hours = none` — even though the run
produced 20 hours of totals, so no module or feature node was "mutated in
place with a fresh calculated-hours annotation". -/
theorem C2_missing_calculated_hours_cex :
    (calculateModuleEstimationTree annotTree OptimisticLevel.realistic 20).map
        (fun pr => pr.2) = some annotTree
    ∧ (calculateModuleEstimationTree annotTree OptimisticLevel.realistic 20).map
        (fun pr => pr.2.modules.map (fun ms => ms.map Module.calculated_hours))
      = some (some [none])
    ∧ (calculateModuleEstimationTree annotTree OptimisticLevel.realistic 20).map
        (fun pr => pr.1.totals.original_hours) = some 20 := by
  decide

/-- C2 (amended): `calculateModuleEstimation` performs no mutation at all —
the caller's tree after the call is the input tree, no `calculated_hours`
annotation is written, and no per-feature or per-module subtotals exist;
leaf contributions are summed directly into the project-wide totals. -/
theorem C2_no_tree_mutation (t : ModulesData) (level : OptimisticLevel) (v : ℚ)
    (pr : EstimationResult × ModulesData)
    (h : calculateModuleEstimationTree t level v = some pr) : pr.2 = t := by
  unfold calculateModuleEstimationTree at h
  cases hc : calculateModuleEstimation t level v with
  | none => rw [hc] at h; cases h
  | some r =>
      rw [hc] at h
      obtain rfl : (r, t) = pr := by simpa using h
      rfl

/-- C2 witness: the no-mutation theorem applied to `annotTree`. -/
theorem C2_no_tree_mutation_witness : (annotResult, annotTree).2 = annotTree :=
  C2_no_tree_mutation annotTree OptimisticLevel.realistic 20
    (annotResult, annotTree) (by decide)

/-- C3, counterexample to the claim as stated: `missingAndUnknownTree` has a
module without a `features` array (so it belongs to the class of trees the
claim quantifies over), yet `calculateModuleEstimation` throws on it,
because a sub-feature elsewhere in the tree carries the unknown label 4. -/
theorem C3_unknown_label_raises_cex :
    calculateModuleEstimation missingAndUnknownTree OptimisticLevel.realistic 20 = none
    ∧ missingAndUnknownTree.modules.map (fun ms => ms.map (fun m => m.features.isSome))
      = some [false, true] := by
  decide

/-- C3 (amended): provided every truthy `fibonacci_points` label in the tree
is a key of the scale, `calculateModuleEstimation` does not raise; a module
without `features`, a feature without estimation and `sub_features`, and a
sub-feature without estimation each leave the running state untouched
wherever they stand in their loop (contributing 0 hours and 0 points to
every total, with the rest processed unchanged); and an absent `modules`
array yields all-zero totals. -/
theorem C3_absences_contribute_nothing (t : ModulesData)
    (level : OptimisticLevel) (v : ℚ) (st : RollState)
    (ms1 ms2 : List Module) (fs1 fs2 : List Feature)
    (sfs1 sfs2 : List SubFeature) (m0 : Module) (f0 : Feature) (sf0 : SubFeature)
    (hv : treeValid t = true) (hm0 : m0.features = none)
    (hf0 : f0.estimation = none) (hf0s : f0.sub_features = none)
    (hsf0 : sf0.estimation = none) :
    (calculateModuleEstimation t level v).isSome = true ∧
    processModules level (ms1 ++ m0 :: ms2) st = processModules level (ms1 ++ ms2) st ∧
    runList (processFeature level) (fs1 ++ f0 :: fs2) st
      = runList (processFeature level) (fs1 ++ fs2) st ∧
    processSubFeatures level (sfs1 ++ sf0 :: sfs2) st
      = processSubFeatures level (sfs1 ++ sfs2) st ∧
    (calculateModuleEstimation (ModulesData.mk none) level v).map
        (fun r => (r.totals.original_points, r.totals.adjusted_points,
                   r.totals.original_hours, r.totals.adjusted_hours))
      = some (0, 0, 0, 0) := by
  refine ⟨?_, ?_, ?_, ?_, rfl⟩
  · rw [calculateModuleEstimation_eq]
    have hs := treeContrib_isSome level t hv
    cases hc : treeContrib level t with
    | none => rw [hc] at hs; cases hs
    | some ps => simp [hc]
  · exact runList_skip (processModule level) m0
      (fun st2 => by simp [processModule, hm0]) ms1 ms2 st
  · exact runList_skip (processFeature level) f0
      (fun st2 => by simp [processFeature, processNode, truthyPoints, hf0, hf0s]) fs1 fs2 st
  · exact runList_skip (fun sf => processNode level sf.id sf.estimation) sf0
      (fun st2 => by simp [processNode, truthyPoints, hsf0]) sfs1 sfs2 st

/-- C3 witness: the tolerance theorem applied to `mixedTree` with an empty
module, a bare feature and a bare sub-feature inserted into empty loops. -/
theorem C3_absences_contribute_nothing_witness :
    (calculateModuleEstimation mixedTree OptimisticLevel.realistic 20).isSome = true ∧
    processModules OptimisticLevel.realistic ([] ++ emptyModule :: []) initialState
      = processModules OptimisticLevel.realistic ([] ++ []) initialState ∧
    runList (processFeature OptimisticLevel.realistic) ([] ++ bareFeature :: []) initialState
      = runList (processFeature OptimisticLevel.realistic) ([] ++ []) initialState ∧
    processSubFeatures OptimisticLevel.realistic ([] ++ bareSubFeature :: []) initialState
      = processSubFeatures OptimisticLevel.realistic ([] ++ []) initialState ∧
    (calculateModuleEstimation (ModulesData.mk none) OptimisticLevel.realistic 20).map
        (fun r => (r.totals.original_points, r.totals.adjusted_points,
                   r.totals.original_hours, r.totals.adjusted_hours))
      = some (0, 0, 0, 0) :=
  C3_absences_contribute_nothing mixedTree OptimisticLevel.realistic 20
    initialState [] [] [] [] [] [] emptyModule bareFeature bareSubFeature
    (by decide) rfl rfl rfl rfl

/-- C4: adjusting under the realistic scenario is the identity on every
label, including values not present in the scale. -/
theorem C4_realistic_identity (p : ℚ) :
    adjustFibonacciPoints p OptimisticLevel.realistic = p := rfl

/-- C5: for a label of the sequence, `previous (next label) = label` except
at the last element 55, where `next` is the identity; `previous` is the
identity at the first element; an unknown value is returned unchanged by
both navigators; and the top label stays at the top under the pessimistic
adjustment. -/
theorem C5_scale_navigation_clamps (p q : ℚ) (hp : p ∈ FIBONACCI_SEQUENCE)
    (hq : q ∉ FIBONACCI_SEQUENCE) :
    (p ≠ 55 → getPreviousFibonacci (getNextFibonacci p) = p) ∧
    getNextFibonacci 55 = 55 ∧
    getPreviousFibonacci 1 = 1 ∧
    getNextFibonacci q = q ∧ getPreviousFibonacci q = q ∧
    adjustFibonacciPoints 55 OptimisticLevel.pessimistic = 55 := by
  refine ⟨?_, by decide, by decide, getNextFibonacci_not_mem q hq,
    getPreviousFibonacci_not_mem q hq, by decide⟩
  intro hne
  fin_cases hp <;> first | decide | exact absurd rfl hne

/-- C5 witness: the clamping theorem at the in-scale label 3 and the
out-of-scale value 4. -/
theorem C5_scale_navigation_clamps_witness :
    ((3 : ℚ) ≠ 55 → getPreviousFibonacci (getNextFibonacci 3) = 3) ∧
    getNextFibonacci 55 = 55 ∧
    getPreviousFibonacci 1 = 1 ∧
    getNextFibonacci 4 = 4 ∧ getPreviousFibonacci 4 = 4 ∧
    adjustFibonacciPoints 55 OptimisticLevel.pessimistic = 55 :=
  C5_scale_navigation_clamps 3 4 (by decide) (by decide)

/-- C6: a second run on the tree as the caller holds it after a first run,
with the same scenario and velocity, returns the very same result — in
particular the same totals; the engine recomputes from the leaf labels and
caches nothing in the tree. -/
theorem C6_idempotent_rollup (t : ModulesData) (level : OptimisticLevel) (v : ℚ)
    (pr : EstimationResult × ModulesData)
    (h : calculateModuleEstimationTree t level v = some pr) :
    calculateModuleEstimationTree pr.2 level v = some pr ∧
    (calculateModuleEstimationTree pr.2 level v).map (fun q => q.1.totals)
      = some pr.1.totals := by
  unfold calculateModuleEstimationTree at h ⊢
  cases hc : calculateModuleEstimation t level v with
  | none => rw [hc] at h; cases h
  | some r =>
      rw [hc] at h
      obtain rfl : (r, t) = pr := by simpa using h
      simp [hc]

/-- C6 witness: idempotence at `annotTree`. -/
theorem C6_idempotent_rollup_witness :
    calculateModuleEstimationTree (annotResult, annotTree).2 OptimisticLevel.realistic 20
      = some (annotResult, annotTree) ∧
    (calculateModuleEstimationTree (annotResult, annotTree).2 OptimisticLevel.realistic 20).map
        (fun q => q.1.totals) = some (annotResult, annotTree).1.totals :=
  C6_idempotent_rollup annotTree OptimisticLevel.realistic 20
    (annotResult, annotTree) (by decide)

/-- C7, counterexample to the claim as stated: `annotTree` has no
sub-feature at all (its only feature has no `sub_features` array), so under
the claim the adjustments map would be empty; the engine nevertheless
records an entry keyed by the feature id `F1`, because features with a
truthy estimation are recorded too. -/
theorem C7_feature_entry_cex :
    (calculateModuleEstimation annotTree OptimisticLevel.realistic 20).map
        (fun r => r.adjustments.map Prod.fst) = some ["F1"]
    ∧ annotTree.modules.map (fun ms => ms.map (fun m =>
        (m.features.getD []).map (fun f => f.sub_features))) = some [[none]] := by
  decide

/-- C7 (amended): when the feature and sub-feature ids of the tree are
pairwise distinct, the returned adjustments map is exactly the contribution
list of the tree: one entry per feature with a truthy estimation and one per
sub-feature with a truthy estimation, in traversal order, keyed by the
node's id and holding its original and adjusted points, its original and
adjusted hours, and the scenario's adjustment reason (see `nodeContrib` and
`entryFor`) — and no other keys appear. -/
theorem C7_adjustments_one_entry_per_estimated_node (t : ModulesData)
    (level : OptimisticLevel) (v : ℚ) (r : EstimationResult)
    (h : calculateModuleEstimation t level v = some r)
    (hnd : (treeIds t).Nodup) :
    treeContrib level t = some r.adjustments := by
  rw [calculateModuleEstimation_eq] at h
  cases hc : treeContrib level t with
  | none => rw [hc] at h; cases h
  | some ps =>
      rw [hc] at h
      obtain rfl : assembleResult level v (applyAll initialState ps) = r := by
        simpa using h
      show some ps = some (applyAll initialState ps).adjustments
      rw [applyAll_spec ps initialState]
      simp [foldl_keyInsert_nil ps (hnd.sublist (treeContrib_keys level t ps hc)),
        initialState]

/-- C7 witness: the characterization at `mixedTree`. -/
theorem C7_adjustments_one_entry_per_estimated_node_witness :
    treeContrib OptimisticLevel.realistic mixedTree = some mixedResult.adjustments :=
  C7_adjustments_one_entry_per_estimated_node mixedTree OptimisticLevel.realistic 20
    mixedResult (by decide) (by decide)

/-- C8: `fibonacciToHours` succeeds exactly on the keys of the scale table
and returns the table's hour value; `isValidFibonacciPoint` is key
membership; and the navigators are total and return an out-of-scale value
unchanged (they clamp, they never fail). -/
theorem C8_lookup_failure_contract (p : ℚ) :
    ((fibonacciToHours p).isSome = true ↔ p ∈ FIBONACCI_SCALE.map Prod.fst) ∧
    (isValidFibonacciPoint p = true ↔ p ∈ FIBONACCI_SCALE.map Prod.fst) ∧
    (∀ h : ℚ, fibonacciToHours p = some h → (p, h) ∈ FIBONACCI_SCALE) ∧
    (p ∉ FIBONACCI_SEQUENCE → getNextFibonacci p = p ∧ getPreviousFibonacci p = p) := by
  refine ⟨?_, ?_, ?_, fun hnm =>
    ⟨getNextFibonacci_not_mem p hnm, getPreviousFibonacci_not_mem p hnm⟩⟩
  · simp only [fibonacciToHours, Option.isSome_map', List.find?_isSome,
      decide_eq_true_eq, List.mem_map]
  · simp only [isValidFibonacciPoint, List.any_eq_true, decide_eq_true_eq,
      List.mem_map]
  · intro h hf
    unfold fibonacciToHours at hf
    cases hfind : FIBONACCI_SCALE.find? (fun pr => pr.1 = p) with
    | none => rw [hfind] at hf; cases hf
    | some pr =>
        rw [hfind] at hf
        have hmem := List.mem_of_find?_eq_some hfind
        have hkey : pr.1 = p := by simpa using List.find?_some hfind
        obtain ⟨a, b⟩ := pr
        obtain rfl : b = h := by simpa using hf
        obtain rfl : a = p := hkey
        exact hmem

/-- C9, counterexample to the claim as stated: `getEstimationSummary` with
`totalPoints = 16`, `totalHours = 40` and velocity 20 returns sprints `0.8`,
not the `2.0` that the claimed derivation applied to the hours argument
would give: the summary divides its points argument by the velocity. -/
theorem C9_summary_ignores_hours_cex :
    (getEstimationSummary 16 40 20).sprints = 4/5 ∧
    (getEstimationSummary 16 40 20).hours = 40 ∧
    ceil10 ((40 : ℚ) / 20) = 2 ∧ ¬ ((4 : ℚ) / 5 = 2) := by
  decide

/-- C9 (amended): `getEstimationSummary` applies the rollup's sprint/week
derivation to its points argument — sprints is points over velocity rounded
up to one decimal, weeks its double rounded up to one decimal — so fed a
rollup's `adjusted_points` (and hours) it reproduces that rollup's
`estimated_sprints` and `estimated_weeks`. -/
theorem C9_summary_points_derivation (tp th v : ℚ) (t : ModulesData)
    (level : OptimisticLevel) (r : EstimationResult)
    (h : calculateModuleEstimation t level v = some r) :
    (getEstimationSummary tp th v).sprints = ceil10 (tp / v) ∧
    (getEstimationSummary tp th v).weeks = ceil10 (tp / v * 2) ∧
    (getEstimationSummary r.totals.adjusted_points r.totals.adjusted_hours v).sprints
      = r.totals.estimated_sprints ∧
    (getEstimationSummary r.totals.adjusted_points r.totals.adjusted_hours v).weeks
      = r.totals.estimated_weeks := by
  refine ⟨rfl, rfl, ?_, ?_⟩ <;>
  · rw [calculateModuleEstimation_eq] at h
    cases hc : treeContrib level t with
    | none => rw [hc] at h; cases h
    | some ps =>
        rw [hc] at h
        obtain rfl : assembleResult level v (applyAll initialState ps) = r := by
          simpa using h
        rfl

/-- C9 witness: the summary/rollup agreement at `annotTree` and at the
standalone arguments 16 points, 40 hours, velocity 20. -/
theorem C9_summary_points_derivation_witness :
    (getEstimationSummary 16 40 20).sprints = ceil10 ((16 : ℚ) / 20) ∧
    (getEstimationSummary 16 40 20).weeks = ceil10 ((16 : ℚ) / 20 * 2) ∧
    (getEstimationSummary annotResult.totals.adjusted_points
        annotResult.totals.adjusted_hours 20).sprints
      = annotResult.totals.estimated_sprints ∧
    (getEstimationSummary annotResult.totals.adjusted_points
        annotResult.totals.adjusted_hours 20).weeks
      = annotResult.totals.estimated_weeks :=
  C9_summary_points_derivation 16 40 20 annotTree OptimisticLevel.realistic
    annotResult (by decide)

/-- C10: when all feature and sub-feature ids of the tree are pairwise
distinct, the four point/hour totals of a returned result equal the sums of
the corresponding fields over the entries of its adjustments map. -/
theorem C10_totals_equal_adjustment_sums (t : ModulesData)
    (level : OptimisticLevel) (v : ℚ) (r : EstimationResult)
    (h : calculateModuleEstimation t level v = some r)
    (hnd : (treeIds t).Nodup) :
    r.totals.original_hours
      = (r.adjustments.map (fun kv => kv.2.original_hours)).sum ∧
    r.totals.adjusted_hours
      = (r.adjustments.map (fun kv => kv.2.adjusted_hours)).sum ∧
    r.totals.original_points
      = (r.adjustments.map (fun kv => kv.2.original_points)).sum ∧
    r.totals.adjusted_points
      = (r.adjustments.map (fun kv => kv.2.adjusted_points)).sum := by
  rw [calculateModuleEstimation_eq] at h
  cases hc : treeContrib level t with
  | none => rw [hc] at h; cases h
  | some ps =>
      rw [hc] at h
      obtain rfl : assembleResult level v (applyAll initialState ps) = r := by
        simpa using h
      have hadj : (applyAll initialState ps).adjustments = ps := by
        rw [applyAll_spec ps initialState]
        simpa [initialState] using
          foldl_keyInsert_nil ps (hnd.sublist (treeContrib_keys level t ps hc))
      have hspec := applyAll_spec ps initialState
      refine ⟨?_, ?_, ?_, ?_⟩ <;>
        (simp only [assembleResult]; rw [hadj, hspec]; simp [initialState])

/-- C10 witness: the totals/adjustments agreement at `mixedTree`. -/
theorem C10_totals_equal_adjustment_sums_witness :
    mixedResult.totals.original_hours
      = (mixedResult.adjustments.map (fun kv => kv.2.original_hours)).sum ∧
    mixedResult.totals.adjusted_hours
      = (mixedResult.adjustments.map (fun kv => kv.2.adjusted_hours)).sum ∧
    mixedResult.totals.original_points
      = (mixedResult.adjustments.map (fun kv => kv.2.original_points)).sum ∧
    mixedResult.totals.adjusted_points
      = (mixedResult.adjustments.map (fun kv => kv.2.adjusted_points)).sum :=
  C10_totals_equal_adjustment_sums mixedTree OptimisticLevel.realistic 20
    mixedResult (by decide) (by decide)

end Estimator
